import Mathlib

/-!
Verification of the transaction pattern-analysis subsystem of a
personal-finance backend: SMS parsing, duplicate detection,
recurring-transaction detection, categorization and summary insights.

The TypeScript services are shallowly embedded: strings are Lean `String`
(scanned as `List Char`), JavaScript `Date` timestamps are `Int`
milliseconds since the Unix epoch in a DST-free proleptic-Gregorian
calendar (the data model treats dates as date-only midnight values),
and numeric amounts are `ℚ`.  Regular-expression tests from the source
are hand-compiled into matching functions that follow the JavaScript
semantics (leftmost match, alternation in written order, greedy/lazy
quantifiers as written) for the concrete patterns involved.
-/

namespace Finance

/-! ### Character and string primitives -/

/-- ASCII lowercase of a string, as `String.toLowerCase` in JS acts on the
ASCII inputs at hand. -/
def toLowerStr (s : String) : List Char :=
  s.toList.map Char.toLower

/-- JS whitespace class `\s` restricted to the ASCII characters occurring
in the inputs. -/
def isWs (c : Char) : Bool :=
  c = ' ' || c = '\t' || c = '\n' || c = '\r' || c = '\x0b' || c = '\x0c'

def isDigitCh (c : Char) : Bool := '0' ≤ c && c ≤ '9'

def isAsciiAlpha (c : Char) : Bool :=
  ('a' ≤ c && c ≤ 'z') || ('A' ≤ c && c ≤ 'Z')

/-- JS word character `\w` = `[A-Za-z0-9_]`. -/
def isWordCh (c : Char) : Bool := isAsciiAlpha c || isDigitCh c || c = '_'

/-- Match a literal at the head of the input; `Option` of the rest. -/
def dropLit : List Char → List Char → Option (List Char)
  | [], cs => some cs
  | _ :: _, [] => none
  | l :: ls, c :: cs => if c = l then dropLit ls cs else none

/-- Substring containment: JS `hay.includes(needle)`. -/
def containsSub (hay needle : List Char) : Bool :=
  match hay with
  | [] => needle.isEmpty
  | _ :: rest => (dropLit needle hay).isSome || containsSub rest needle

/-- Like `dropLit` but case-insensitive (literal given in lowercase). -/
def dropLitCi : List Char → List Char → Option (List Char)
  | [], cs => some cs
  | _ :: _, [] => none
  | l :: ls, c :: cs => if c.toLower = l then dropLitCi ls cs else none

/-- `\s+`: require at least one whitespace character, consume greedily. -/
def dropWs1 (cs : List Char) : Option (List Char) :=
  match cs with
  | c :: rest => if isWs c then some (rest.dropWhile isWs) else none
  | [] => none

/-- Scan every suffix of the input from the left, returning the result of
the first start position at which the matcher succeeds: JS leftmost-match
search. -/
def firstSome {α : Type} (f : List Char → Option α) : List Char → Option α
  | [] => f []
  | c :: cs =>
    match f (c :: cs) with
    | some a => some a
    | none => firstSome f cs

/-- Like `firstSome`, but the matcher also receives the character just
before the current start position (for `\b` word boundaries). -/
def firstSomeB {α : Type} (f : Option Char → List Char → Option α) :
    Option Char → List Char → Option α
  | prev, [] => f prev []
  | prev, c :: cs =>
    match f prev (c :: cs) with
    | some a => some a
    | none => firstSomeB f (some c) cs

/-- JS `String.prototype.trim`. -/
def trimChars (cs : List Char) : List Char :=
  ((cs.dropWhile isWs).reverse.dropWhile isWs).reverse

def ofChars (cs : List Char) : String := String.mk cs

mutual

/-- JS `split(/\s+/)` worker: tokens separated at maximal whitespace runs;
a leading run contributes a leading empty token, a trailing run a trailing
empty token, and the empty string splits to one empty token.
`splitWsGo` accumulates the current token; `splitWsSkip` consumes the
remainder of a whitespace run. -/
def splitWsGo : List Char → List Char → List (List Char)
  | acc, [] => [acc.reverse]
  | acc, c :: cs =>
    if isWs c then acc.reverse :: splitWsSkip cs
    else splitWsGo (c :: acc) cs

def splitWsSkip : List Char → List (List Char)
  | [] => [[]]
  | c :: cs => if isWs c then splitWsSkip cs else splitWsGo [c] cs

end

def splitWs (cs : List Char) : List (List Char) := splitWsGo [] cs

/-! ### Calendar arithmetic (proleptic Gregorian, no DST)

`Int` milliseconds since 1970-01-01T00:00.  `daysFromCivil` and
`civilFromDays` are the standard civil-calendar conversions used to model
the JS `Date` component getters/setters. -/

def msPerDay : Int := 86400000
def msPerHour : Int := 3600000

/-- Days since epoch of year `y`, month `m ∈ [1,12]`, day 1. -/
def daysFromCivilFirst (y m : Int) : Int :=
  let y' := if m ≤ 2 then y - 1 else y
  let era := y'.fdiv 400
  let yoe := y' - era * 400
  let mp := if 2 < m then m - 3 else m + 9
  let doy := (153 * mp + 2).fdiv 5
  let doe := yoe * 365 + yoe.fdiv 4 - yoe.fdiv 100 + doy
  era * 146097 + doe - 719468

/-- `(year, month0, day)` of a days-since-epoch value, with `month0`
0-based as in JS `Date.getMonth`. -/
def civilFromDays (z : Int) : Int × Int × Int :=
  let z := z + 719468
  let era := z.fdiv 146097
  let doe := z - era * 146097
  let yoe := (doe - doe.fdiv 1460 + doe.fdiv 36524 - doe.fdiv 146096).fdiv 365
  let y := yoe + era * 400
  let doy := doe - (365 * yoe + yoe.fdiv 4 - yoe.fdiv 100)
  let mp := (5 * doy + 2).fdiv 153
  let d := doy - (153 * mp + 2).fdiv 5 + 1
  let m := if mp < 10 then mp + 3 else mp - 9
  (if m ≤ 2 then y + 1 else y, m - 1, d)

/-- Days since epoch of JS `new Date(y, m, d)` at midnight: month `m` is
0-based and both month and day overflow are normalized, exactly as the JS
constructor does. -/
def mkDays (y m d : Int) : Int :=
  let ny := y + m.fdiv 12
  let nm := m.emod 12
  daysFromCivilFirst ny (nm + 1) + (d - 1)

/-- Milliseconds timestamp of JS `new Date(y, m, d)` (midnight). -/
def mkDateMs (y m d : Int) : Int := mkDays y m d * msPerDay

/-- JS `date.setMonth(date.getMonth() + 1)`: advance one calendar month,
keeping day-of-month (overflow normalized) and time of day. -/
def addMonthJS (t : Int) : Int :=
  let days := t.fdiv msPerDay
  let tod := t.emod msPerDay
  let c := civilFromDays days
  mkDays c.1 (c.2.1 + 1) c.2.2 * msPerDay + tod

/-! ### SMS parser (`smsParserService.ts`)

The regular expressions of the source are hand-compiled to matchers with
JS semantics: leftmost start position, alternatives in written order,
greedy (maximal-munch) and lazy (terminator-first) quantifiers.  Patterns
with the `i` flag are run on the lowercased text or compared
case-insensitively. -/

inductive Channel
  | upi | card | atm | netbanking | other
deriving DecidableEq, Repr

inductive Direction
  | debit | credit
deriving DecidableEq, Repr

structure ParsedTransaction where
  rawText : String
  amount : ℚ
  merchant : String
  date : Int
  type : Direction
  channel : Channel
  bank : Option String
deriving DecidableEq, Repr

/-- `detectTransactionType`: channel classification by keyword. -/
def detectTransactionType (s : String) : Channel :=
  let lower := toLowerStr s
  let has := fun (k : String) => containsSub lower k.toList
  if has "upi" || has "paytm" || has "gpay" || has "cred" || has "phonepe" then .upi
  else if has "card" || has "pos" then .card
  else if has "atm" then .atm
  else if has "netbanking" || has "neft" || has "imps" then .netbanking
  else .other

def isDigitComma (c : Char) : Bool := isDigitCh c || c = ','

/-- Capture of `([0-9,]+\.?\d*)` at the current position: greedy digit/comma
run (at least one), optional dot, greedy fraction digits. -/
def matchNum (cs : List Char) : Option (List Char) :=
  let ds := cs.takeWhile isDigitComma
  if ds.isEmpty then none
  else
    match cs.drop ds.length with
    | '.' :: rest2 => some (ds ++ '.' :: rest2.takeWhile isDigitCh)
    | _ => some ds

/-- `\s*` then `([0-9,]+\.?\d*)`. -/
def matchNumAfterWs (cs : List Char) : Option (List Char) :=
  matchNum (cs.dropWhile isWs)

/-- `(?:rs\.?|inr)` then continuation `k`; the optional dot is greedy with
backtracking (prefer consuming the dot, retry without on failure). -/
def afterCurrency {α : Type} (k : List Char → Option α) (cs : List Char) : Option α :=
  match dropLitCi "rs".toList cs with
  | some rest =>
    (match rest with
     | '.' :: rest2 => (k rest2).orElse fun _ => k rest
     | _ => k rest)
  | none =>
    match dropLitCi "inr".toList cs with
    | some rest => k rest
    | none => none

/-- Amount pattern 1 at a position: `(?:rs\.?|inr)\s*([0-9,]+\.?\d*)` (`i`). -/
def amtPat1At (cs : List Char) : Option (List Char) :=
  afterCurrency matchNumAfterWs cs

/-- `(?:rs\.?|inr)?\s*([0-9,]+\.?\d*)`: the optional currency group is
greedy, falling back to absence when its continuation fails. -/
def optCurrencyNum (cs : List Char) : Option (List Char) :=
  (afterCurrency matchNumAfterWs cs).orElse fun _ => matchNumAfterWs cs

/-- Amount pattern 2 at a position:
`(?:debited|credited|spent|paid|received)\s+(?:rs\.?|inr)?\s*([0-9,]+\.?\d*)` (`i`). -/
def amtPat2At (cs : List Char) : Option (List Char) :=
  let rec tryKws : List String → Option (List Char)
    | [] => none
    | kw :: kws =>
      match dropLitCi kw.toList cs with
      | some rest => ((dropWs1 rest).bind optCurrencyNum).orElse fun _ => tryKws kws
      | none => tryKws kws
  tryKws ["debited", "credited", "spent", "paid", "received"]

/-- `[:.\s]` class of amount pattern 3. -/
def isColonDotWs (c : Char) : Bool := c = ':' || c = '.' || isWs c

/-- Amount pattern 3 at a position:
`(?:amount|amt)[:.\s]+(?:rs\.?|inr)?\s*([0-9,]+\.?\d*)` (`i`). -/
def amtPat3At (cs : List Char) : Option (List Char) :=
  let after := fun (rest : List Char) =>
    match rest with
    | c :: rest2 =>
      if isColonDotWs c then optCurrencyNum (rest2.dropWhile isColonDotWs) else none
    | [] => none
  match dropLitCi "amount".toList cs with
  | some rest => (after rest).orElse fun _ =>
      (dropLitCi "amt".toList cs).bind after
  | none => (dropLitCi "amt".toList cs).bind after

def digitsToNat (cs : List Char) : ℕ :=
  cs.foldl (fun n c => n * 10 + (c.toNat - 48)) 0

/-- JS `parseFloat` restricted to the `digits [ "." digits ]` strings the
capture groups can produce (after comma stripping); `none` models `NaN`. -/
def parseFloatQ (cs : List Char) : Option ℚ :=
  let intPart := cs.takeWhile isDigitCh
  let fracPart :=
    match cs.drop intPart.length with
    | '.' :: r => r.takeWhile isDigitCh
    | _ => []
  if intPart.isEmpty && fracPart.isEmpty then none
  else some ((digitsToNat intPart : ℚ) + (digitsToNat fracPart : ℚ) / 10 ^ fracPart.length)

/-- One pattern step of `extractAmount`: parse the first match's capture
with commas removed, keeping it only when positive. -/
def tryAmtPat (m : Option (List Char)) : Option ℚ :=
  match m with
  | none => none
  | some cap =>
    match parseFloatQ (cap.filter (fun c => c ≠ ',')) with
    | some v => if 0 < v then some v else none
    | none => none

/-- `extractAmount`: the three currency patterns tried in order, each on
its leftmost match only, moving to the next pattern on parse failure or a
non-positive value. -/
def extractAmount (s : String) : Option ℚ :=
  let cs := toLowerStr s
  (tryAmtPat (firstSome amtPat1At cs)).orElse fun _ =>
  (tryAmtPat (firstSome amtPat2At cs)).orElse fun _ =>
  tryAmtPat (firstSome amtPat3At cs)

/-! Merchant extraction. -/

def isUpperCh (c : Char) : Bool := 'A' ≤ c && c ≤ 'Z'

/-- `[A-Z]`, case-insensitive when `ci`. -/
def capStart (ci : Bool) (c : Char) : Bool := if ci then isAsciiAlpha c else isUpperCh c

/-- `[A-Z0-9\s]`, case-insensitive when `ci`. -/
def capBody (ci : Bool) (c : Char) : Bool := capStart ci c || isDigitCh c || isWs c

/-- Worker for the lazy capture `([A-Z][A-Z0-9\s]+?)` followed by a
terminator: at each position the terminator is preferred before the
capture is extended. -/
def lazyCapGo (ci : Bool) (term : List Char → Bool) : List Char → List Char → Option (List Char)
  | acc, cs =>
    if term cs then some acc.reverse
    else
      match cs with
      | c :: rest => if capBody ci c then lazyCapGo ci term (c :: acc) rest else none
      | [] => none

/-- `([A-Z][A-Z0-9\s]+?)term` at a position: one start char, at least one
body char, then lazily grown until the terminator matches. -/
def lazyCapAt (ci : Bool) (term : List Char → Bool) (cs : List Char) : Option (List Char) :=
  match cs with
  | c0 :: c1 :: rest =>
    if capStart ci c0 && capBody ci c1 then lazyCapGo ci term [c1, c0] rest else none
  | _ => none

/-- Greedy capture `([A-Z][A-Z0-9\s]+)` at a position (nothing follows). -/
def greedyCapAt (ci : Bool) (cs : List Char) : Option (List Char) :=
  match cs with
  | c0 :: rest =>
    if capStart ci c0 then
      let b := rest.takeWhile (capBody ci)
      if b.isEmpty then none else some (c0 :: b)
    else none
  | [] => none

/-- `\s+lit` with case-insensitive literal. -/
def termWsLitCi (lit : String) (cs : List Char) : Bool :=
  match dropWs1 cs with
  | some rest => (dropLitCi lit.toList rest).isSome
  | none => false

/-- `\s+lit`, case-sensitive. -/
def termWsLit (lit : String) (cs : List Char) : Bool :=
  match dropWs1 cs with
  | some rest => (dropLit lit.toList rest).isSome
  | none => false

def headIsDot : List Char → Bool
  | '.' :: _ => true
  | _ => false

/-- Terminator of merchant pattern 1: `(?:\s+Refno|\s+on|\s+dated|\.|$)` (`i`). -/
def p1Term (cs : List Char) : Bool :=
  termWsLitCi "refno" cs || termWsLitCi "on" cs || termWsLitCi "dated" cs ||
    headIsDot cs || cs.isEmpty

/-- Terminator of merchant pattern 2: `(?:\s+ATM|\s+from|\s+on|\.|$)` (`i`). -/
def p2Term (cs : List Char) : Bool :=
  termWsLitCi "atm" cs || termWsLitCi "from" cs || termWsLitCi "on" cs ||
    headIsDot cs || cs.isEmpty

/-- Terminator of merchant pattern 3: `(?:\s+on|\s+dated|\.|$)` (no `i`). -/
def p3Term (cs : List Char) : Bool :=
  termWsLit "on" cs || termWsLit "dated" cs || headIsDot cs || cs.isEmpty

/-- Merchant pattern 1 at a position:
`trf\s+to\s+([A-Z][A-Z0-9\s]+?)(?:\s+Refno|\s+on|\s+dated|\.|$)` (`i`). -/
def merchPat1At (cs : List Char) : Option (List Char) :=
  (dropLitCi "trf".toList cs).bind fun r1 =>
  (dropWs1 r1).bind fun r2 =>
  (dropLitCi "to".toList r2).bind fun r3 =>
  (dropWs1 r3).bind (lazyCapAt true p1Term)

/-- Merchant pattern 2 at a position:
`withdrawn\s+at\s+([A-Z][A-Z0-9\s]+?)(?:\s+ATM|\s+from|\s+on|\.|$)` (`i`). -/
def merchPat2At (cs : List Char) : Option (List Char) :=
  (dropLitCi "withdrawn".toList cs).bind fun r1 =>
  (dropWs1 r1).bind fun r2 =>
  (dropLitCi "at".toList r2).bind fun r3 =>
  (dropWs1 r3).bind (lazyCapAt true p2Term)

/-- Merchant pattern 3 at a position:
`(?:at|to|for)\s+([A-Z][A-Z0-9\s]+?)(?:\s+on|\s+dated|\.|$)` (case-sensitive). -/
def merchPat3At (cs : List Char) : Option (List Char) :=
  let after := fun (rest : List Char) => (dropWs1 rest).bind (lazyCapAt false p3Term)
  ((dropLit "at".toList cs).bind after).orElse fun _ =>
  ((dropLit "to".toList cs).bind after).orElse fun _ =>
  (dropLit "for".toList cs).bind after

/-- Merchant pattern 4 at a position: `upi\/\d+\/([A-Z@]+)` (`i`). -/
def merchPat4At (cs : List Char) : Option (List Char) :=
  (dropLitCi "upi".toList cs).bind fun r1 =>
  match r1 with
  | '/' :: r2 =>
    let ds := r2.takeWhile isDigitCh
    if ds.isEmpty then none
    else
      match r2.drop ds.length with
      | '/' :: r3 =>
        let m := r3.takeWhile (fun c => isAsciiAlpha c || c = '@')
        if m.isEmpty then none else some m
      | _ => none
  | _ => none

/-- Merchant pattern 5 at a position: `paid to\s+([A-Z][A-Z0-9\s]+)` (`i`). -/
def merchPat5At (cs : List Char) : Option (List Char) :=
  (dropLitCi "paid to".toList cs).bind fun r1 =>
  (dropWs1 r1).bind (greedyCapAt true)

/-- Merchant pattern 6 at a position: `merchant\s+([A-Z][A-Z0-9\s]+)` (`i`). -/
def merchPat6At (cs : List Char) : Option (List Char) :=
  (dropLitCi "merchant".toList cs).bind fun r1 =>
  (dropWs1 r1).bind (greedyCapAt true)

/-- First match of the six merchant patterns, tried in order. -/
def merchMatch (cs : List Char) : Option (List Char) :=
  (firstSome merchPat1At cs).orElse fun _ =>
  (firstSome merchPat2At cs).orElse fun _ =>
  (firstSome merchPat3At cs).orElse fun _ =>
  (firstSome merchPat4At cs).orElse fun _ =>
  (firstSome merchPat5At cs).orElse fun _ =>
  firstSome merchPat6At cs

/-- `extractMerchant`: pattern captures (trimmed) in priority order, then
the words-4-to-6 fallback, then the literal `"Transaction"`. -/
def extractMerchant (s : String) : String :=
  match merchMatch s.toList with
  | some cap => ofChars (trimChars cap)
  | none =>
    let words := (splitWs s.toList).filter (fun w => 3 < w.length)
    if 3 < words.length then ofChars (List.intercalate [' '] ((words.drop 3).take 3))
    else "Transaction"

/-! Date extraction. -/

def digitsVal (cs : List Char) : Int := (digitsToNat cs : Int)

def monthNames : List (List Char) :=
  ["jan", "feb", "mar", "apr", "may", "jun", "jul", "aug", "sep", "oct", "nov", "dec"].map
    String.toList

/-- `\d{k}` exactly: `k` digits at the head, returning them and the rest. -/
def takeDigits (k : Nat) (cs : List Char) : Option (List Char × List Char) :=
  let ds := cs.take k
  if ds.length = k && ds.all isDigitCh then some (ds, cs.drop k) else none

/-- Date pattern 1 with day width `k`:
`(\d{1,2})-([A-Za-z]{3})-(\d{2})` body. -/
def datePat1Width (k : Nat) (cs : List Char) : Option (Int × List Char × Int) :=
  (takeDigits k cs).bind fun (ds, r1) =>
  match r1 with
  | '-' :: r2 =>
    let al := r2.take 3
    if al.length = 3 && al.all isAsciiAlpha then
      match r2.drop 3 with
      | '-' :: r3 =>
        (takeDigits 2 r3).map fun (ys, _) => (digitsVal ds, al, digitsVal ys)
      | _ => none
    else none
  | _ => none

/-- Date pattern 1 at a position, greedy day width (2 then 1). -/
def datePat1At (cs : List Char) : Option (Int × List Char × Int) :=
  (datePat1Width 2 cs).orElse fun _ => datePat1Width 1 cs

def isDashSlash (c : Char) : Bool := c = '-' || c = '/'

/-- Date pattern 2 month-and-year tail: `[dash or slash](\d{1,2})[dash or slash](\d{4})`. -/
def datePat2Tail (cs : List Char) : Option (Int × Int) :=
  let withMonth := fun (k : Nat) (r : List Char) =>
    (takeDigits k r).bind fun (ms, r2) =>
    match r2 with
    | c2 :: r3 =>
      if isDashSlash c2 then
        (takeDigits 4 r3).map fun (ys, _) => (digitsVal ms, digitsVal ys)
      else none
    | [] => none
  match cs with
  | c :: r =>
    if isDashSlash c then (withMonth 2 r).orElse fun _ => withMonth 1 r else none
  | [] => none

/-- Date pattern 2 at a position: `(\d{1,2})[dash or slash](\d{1,2})[dash or slash](\d{4})`,
both `{1,2}` quantifiers greedy with backtracking. -/
def datePat2At (cs : List Char) : Option (Int × Int × Int) :=
  let withDay := fun (k : Nat) =>
    (takeDigits k cs).bind fun (ds, r1) =>
    (datePat2Tail r1).map fun (m, y) => (digitsVal ds, m, y)
  (withDay 2).orElse fun _ => withDay 1

/-- `monthNames.indexOf(month.toLowerCase())`, `none` for `-1`. -/
def monthIndex (mon : List Char) : Option Int :=
  let lm := mon.map Char.toLower
  (monthNames.findIdx? (fun m => m == lm)).map Int.ofNat

/-- `extractDate`: `DD-MMM-YY` first (assuming year `2000+YY`), then
`DD[dash or slash]MM[dash or slash]YYYY`, falling back to the current processing time `now`. -/
def extractDate (s : String) (now : Int) : Int :=
  let viaPat2 :=
    match firstSome datePat2At s.toList with
    | some (d, m, y) => mkDateMs y (m - 1) d
    | none => now
  match firstSome datePat1At s.toList with
  | some (d, mon, yy) =>
    match monthIndex mon with
    | some mi => mkDateMs (2000 + yy) mi d
    | none => viaPat2
  | none => viaPat2

/-- `detectBank`: scan text plus sender for known bank substrings. -/
def bankNames : List String :=
  ["hdfc", "icici", "sbi", "axis", "kotak", "idfc", "paytm", "phonepe", "cred"]

def detectBank (s : String) (sender : Option String) : Option String :=
  let lower := toLowerStr (s ++ " " ++ sender.getD "")
  (bankNames.find? (fun b => containsSub lower b.toList)).map
    (fun b => ofChars (b.toList.map Char.toUpper))

/-- `determineTransactionDirection`: credit keywords first, then debit,
defaulting to debit. -/
def determineTransactionDirection (s : String) : Direction :=
  let lower := toLowerStr s
  let has := fun (k : String) => containsSub lower k.toList
  if has "credited" || has "received" || has "refund" || has "cashback" then .credit
  else .debit

/-! Transactional-message filter. -/

def strongOtpIndicators : List String :=
  ["one-time password", "one time password", "safekey", "valid for",
   "do not disclose", "do not share", "please do not share",
   "verification code", "authentication code", "transaction code",
   "secret otp", "otp valid for", "otp for txn"]

def nonTransactionKeywords : List String :=
  ["otp", "balance enquiry", "avl bal:", "available balance",
   "mini statement", "promotional", "offer", "alert"]

def nonWordPrev : Option Char → Bool
  | none => true
  | some c => !isWordCh c

def boundaryAfter : List Char → Bool
  | [] => true
  | c :: _ => !isWordCh c

/-- `(?:lit\s+)?`: greedy optional word-plus-whitespace group. -/
def optWordWs (lit : String) (r : List Char) : List Char :=
  match dropLitCi lit.toList r with
  | some r' =>
    match dropWs1 r' with
    | some r'' => r''
    | none => r
  | none => r

/-- OTP-code pattern, first alternative at a position:
`\b\d{4,8}\s+(?:is\s+)?(?:secret\s+)?otp\b`. -/
def otpAlt1At (prev : Option Char) (cs : List Char) : Option Unit :=
  if !nonWordPrev prev then none
  else
    let ds := cs.takeWhile isDigitCh
    if ds.length < 4 || 8 < ds.length then none
    else
      match dropWs1 (cs.drop ds.length) with
      | none => none
      | some r1 =>
        let r2 := optWordWs "is" r1
        let r3 := optWordWs "secret" r2
        match dropLitCi "otp".toList r3 with
        | some rest => if boundaryAfter rest then some () else none
        | none => none

/-- OTP-code pattern, second alternative at a position:
`\b(?:is|for)\s+\d{4,8}\b`. -/
def otpAlt2At (prev : Option Char) (cs : List Char) : Option Unit :=
  if !nonWordPrev prev then none
  else
    let alt := fun (lit : String) =>
      (dropLitCi lit.toList cs).bind fun r0 =>
      (dropWs1 r0).bind fun r =>
      let ds := r.takeWhile isDigitCh
      if 4 ≤ ds.length && ds.length ≤ 8 && boundaryAfter (r.drop ds.length) then some ()
      else none
    (alt "is").orElse fun _ => alt "for"

/-- Test of `/\b\d{4,8}\s+(?:is\s+)?(?:secret\s+)?otp\b|\b(?:is|for)\s+\d{4,8}\b/i`. -/
def otpCodeTest (lower : List Char) : Bool :=
  (firstSomeB (fun p c => (otpAlt1At p c).orElse fun _ => otpAlt2At p c) none lower).isSome

/-- Test of `/(?:rs\.?|inr)\s*[0-9,]+/i` at a position. -/
def amountTokenAt (cs : List Char) : Option Unit :=
  afterCurrency
    (fun rest =>
      match rest.dropWhile isWs with
      | c :: _ => if isDigitComma c then some () else none
      | [] => none)
    cs

/-- `isTransactionSMS`: strong OTP indicators always reject; weak
non-transaction keywords reject unless `debited`/`credited` occurs; an
OTP-code pattern with OTP vocabulary rejects; the Axis `secret otp for
txn` shape rejects; otherwise accept iff an amount token and a
transaction keyword are both present. -/
def isTransactionSMS (s : String) : Bool :=
  let lower := toLowerStr s
  let has := fun (k : String) => containsSub lower k.toList
  if strongOtpIndicators.any (fun i => containsSub lower i.toList) then false
  else if nonTransactionKeywords.any
      (fun k => containsSub lower k.toList && !has "debited" && !has "credited") then false
  else if otpCodeTest lower &&
      (has "otp" || has "password" || has "code" || has "secret") then false
  else if has "secret otp" && has "for txn" then false
  else
    (firstSome amountTokenAt lower).isSome &&
      (has "debited" || has "credited" || has "spent" || has "paid" || has "received" ||
        has "withdrawn" || has "purchase" ||
        (firstSome (fun cs => (dropLitCi "trf".toList cs).bind fun r =>
          (dropWs1 r).bind fun r2 => dropLitCi "to".toList r2) lower).isSome)

/-- `parseSMSTransaction`: filter, then amount (null on failure), then the
total field extractors.  `now` stands for the processing time used by the
date fallback. -/
def parseSMSTransaction (s : String) (sender : Option String) (now : Int) :
    Option ParsedTransaction :=
  if isTransactionSMS s then
    match extractAmount s with
    | none => none
    | some amount =>
      some { rawText := s, amount := amount, merchant := extractMerchant s,
             date := extractDate s now, type := determineTransactionDirection s,
             channel := detectTransactionType s, bank := detectBank s sender }
  else none

/-! ### Categorization (`categorizationService.ts`)

The external-oracle call (`runAgent`) is modelled as an explicit
`Except Unit AdkResult` argument: `.error` stands for an unconfigured or
throwing client, `.ok` for a response in one of the shapes the service
handles. -/

/-- `normalizeCategory`: trim and capitalize first letter, lowercasing the
rest; empty after trim maps to `"Other"`. -/
def normalizeCategory (category : String) : String :=
  match trimChars category.toList with
  | [] => "Other"
  | c :: rest => ofChars (c.toUpper :: rest.map Char.toLower)

/-- `ruleBasedCategorize`: ordered keyword rules over the lowercased
description. -/
def ruleBasedCategorize (description : String) : String :=
  let l := toLowerStr description
  let has := fun (k : String) => containsSub l k.toList
  if has "withdrawn at" || (has "withdrawn" && has "atm") ||
      has "cash withdrawal" || has "atm withdrawal" then "Cash"
  else if has "american express" || has "amex" || has "cred club" ||
      (has "cred" && (has "trf" || has "payment")) ||
      has "credit card" || has "card payment" || has "card bill" ||
      (has "trf to" && (has "express" || has "cred" || has "card")) then "Bills"
  else if has "swiggy" || has "zomato" || has "restaurant" || has "food" then "Food"
  else if has "uber" || has "ola" || has "rapido" || has "taxi" || has "cab" then "Transport"
  else if has "rent" then "Rent"
  else if has "electricity" || has "wifi" || has "broadband" || has "mobile bill" then "Bills"
  else if has "amazon" || has "flipkart" || has "myntra" then "Shopping"
  else "Other"

/-- Response shapes of the categorization agent: a bare string, an object
whose `category` field is a string (`none` models a missing or non-string
field), or anything else. -/
inductive AdkResult
  | str (s : String)
  | obj (category : Option String)
  | other
deriving DecidableEq, Repr

/-- Category extracted from a response, as the service's shape handling
does.  A falsy (empty) string behaves identically to a missing category
because the subsequent trim-length validation rejects it. -/
def adkCategory : AdkResult → Option String
  | .str s => some s
  | .obj c => c
  | .other => none

/-- `categorizeTransaction`: oracle result first, validated and
normalized; rule-based fallback on a thrown error or an invalid/empty
category.  The optional context only feeds the oracle prompt and does not
influence this logic. -/
def categorizeTransaction (oracle : Except Unit AdkResult) (description : String) : String :=
  match oracle with
  | .error _ => ruleBasedCategorize description
  | .ok r =>
    match adkCategory r with
    | some c =>
      if 0 < (trimChars c.toList).length then normalizeCategory c
      else ruleBasedCategorize description
    | none => ruleBasedCategorize description

/-! ### Shared transaction record and description normalization -/

structure Tx where
  amount : ℚ
  description : String
  category : String
  source : String
  date : Int
deriving DecidableEq, Repr, Inhabited

mutual

/-- Worker for `replace(/\s+/g, ' ')`: each maximal whitespace run becomes
one space. -/
def collapseWsGo : List Char → List Char
  | [] => []
  | c :: cs => if isWs c then ' ' :: collapseWsSkip cs else c :: collapseWsGo cs

def collapseWsSkip : List Char → List Char
  | [] => []
  | c :: cs => if isWs c then collapseWsSkip cs else c :: collapseWsGo cs

end

/-- `normalizeDescription` (identical in the duplicate and recurring
services): lowercase, strip characters outside `[a-z0-9\s]`, collapse
whitespace, trim. -/
def normalizeDescription (s : String) : String :=
  let kept := (toLowerStr s).filter
    (fun c => ('a' ≤ c && c ≤ 'z') || isDigitCh c || isWs c)
  ofChars (trimChars (collapseWsGo kept))

/-! ### Duplicate detection (`duplicateDetectionService.ts`)

The SQL fetch is modelled on an explicit history list: the filter mirrors
the `WHERE` clause, the stable descending date sort the `ORDER BY`, and
`take 10` the `LIMIT`. -/

inductive Confidence
  | high | medium | low
deriving DecidableEq, Repr, Inhabited

structure DuplicateCheckResult where
  isDuplicate : Bool
  similarTransactions : List Tx
  confidence : Confidence
  reason : Option String
deriving DecidableEq, Repr

structure CreateTxInput where
  amount : ℚ
  description : String
  source : String
  date : Int
deriving DecidableEq, Repr

/-- Words of length `> 2` of a description, split on whitespace runs. -/
def wordsOf (s : String) : List (List Char) :=
  (splitWs s.toList).filter (fun w => 2 < w.length)

/-- Word-overlap test at threshold `thresh`:
`|common words| / max(|words1|, |words2|) ≥ thresh`. -/
def overlapOk (thresh : ℚ) (d1 d2 : String) : Bool :=
  let w1 := wordsOf d1
  let w2 := wordsOf d2
  if w1.isEmpty || w2.isEmpty then false
  else
    let common := w1.filter (fun w => w2.contains w)
    decide (thresh ≤ (common.length : ℚ) / (max w1.length w2.length : ℚ))

/-- `areDescriptionsSimilar`: equality, containment either way, or word
overlap at least `0.5`. -/
def areDescriptionsSimilar (d1 d2 : String) : Bool :=
  d1 == d2 || containsSub d1.toList d2.toList || containsSub d2.toList d1.toList ||
    overlapOk (1/2) d1 d2

/-- `areDescriptionsVerySimilar`: same tests with overlap threshold `0.8`. -/
def areDescriptionsVerySimilar (d1 d2 : String) : Bool :=
  d1 == d2 || containsSub d1.toList d2.toList || containsSub d2.toList d1.toList ||
    overlapOk (4/5) d1 d2

/-- The SQL amount predicate `ABS(amount - $5) / NULLIF($5, 0) < 0.01`:
false when the candidate amount is zero (`NULL` comparison). -/
def amountWithinTol (a c : ℚ) : Bool :=
  decide (c ≠ 0) && decide (|a - c| / c < 1/100)

/-- The candidate-retrieval query: same source, dated within
`[candidate - windowHours, candidate]`, amount within 1%, ten most recent. -/
def dupQuery (cand : CreateTxInput) (history : List Tx) (windowHours : Int) : List Tx :=
  let windowStart := cand.date - windowHours * msPerHour
  let filtered := history.filter (fun tx =>
    tx.source == cand.source && decide (windowStart ≤ tx.date) &&
      decide (tx.date ≤ cand.date) && amountWithinTol tx.amount cand.amount)
  (List.insertionSort (fun a b : Tx => b.date ≤ a.date) filtered).take 10

/-- `checkForDuplicate`: query, similarity filter, then confidence — HIGH
when a very similar match lies within one hour, else MEDIUM, with LOW and
`isDuplicate = false` when no candidate survives. -/
def checkForDuplicate (cand : CreateTxInput) (history : List Tx)
    (windowHours : Int := 24) : DuplicateCheckResult :=
  let similarTransactions := dupQuery cand history windowHours
  if similarTransactions.isEmpty then
    { isDuplicate := false, similarTransactions := [], confidence := .low, reason := none }
  else
    let nd := normalizeDescription cand.description
    let sims := similarTransactions.filter
      (fun tx => areDescriptionsSimilar nd (normalizeDescription tx.description))
    if sims.isEmpty then
      { isDuplicate := false, similarTransactions := [], confidence := .low, reason := none }
    else
      let exactMatches := sims.filter (fun tx =>
        decide (|((cand.date - tx.date : Int) : ℚ)| / 3600000 ≤ 1) &&
          areDescriptionsVerySimilar nd (normalizeDescription tx.description))
      if exactMatches.isEmpty then
        { isDuplicate := true, similarTransactions := sims, confidence := .medium,
          reason := some ("Potential duplicate: Same amount (₹" ++ toString cand.amount ++
            ") and similar description within " ++ toString windowHours ++ " hours") }
      else
        { isDuplicate := true, similarTransactions := sims, confidence := .high,
          reason := some ("Exact duplicate found: Same amount (₹" ++ toString cand.amount ++
            "), similar description, and same source within 1 hour") }

/-! ### Recurring-transaction detection (`recurringTransactionService.ts`)

The DB fetch is again modelled as an explicit transaction list (the rows
of the lookback window).  Square roots are eliminated from the standard
deviation comparisons: for `v ≥ 0` and `c > 0`, `sqrt v < c ↔ v < c²`. -/

inductive Frequency
  | daily | weekly | monthly | biweekly | unknown
deriving DecidableEq, Repr, Inhabited

structure RecurringPattern where
  description : String
  normalizedDescription : String
  amount : ℚ
  category : String
  source : String
  averageAmount : ℚ
  frequency : Frequency
  confidence : Confidence
deriving DecidableEq, Repr, Inhabited

structure RecurringTransaction where
  pattern : RecurringPattern
  occurrences : List Tx
  nextExpectedDate : Option Int
  totalOccurrences : ℕ
deriving DecidableEq, Repr, Inhabited

/-- Grouping key `normalizedDescription_category_source`. -/
def txKey (t : Tx) : String :=
  normalizeDescription t.description ++ "_" ++ t.category ++ "_" ++ t.source

/-- Keys of the `Map` in first-insertion order. -/
def groupKeys (txs : List Tx) : List String :=
  txs.foldl (fun ks t => if ks.contains (txKey t) then ks else ks ++ [txKey t]) []

/-- Transactions of one group, in insertion order. -/
def groupFor (txs : List Tx) (k : String) : List Tx :=
  txs.filter (fun t => txKey t == k)

def averageAmount (g : List Tx) : ℚ := (g.map (·.amount)).sum / g.length

def amountVariance (g : List Tx) : ℚ :=
  ((g.map (·.amount)).map (fun a => (a - averageAmount g) ^ 2)).sum / g.length

/-- The JS comparison `sqrt(variance)/avg < q` in exact arithmetic: for
`avg > 0` it is `variance < (q·avg)²`; for `avg < 0` the quotient is
non-positive, hence below `q`; for `avg = 0` the quotient is `NaN` or
`+∞` and the comparison is false. -/
def amountCoeffLt (g : List Tx) (q : ℚ) : Bool :=
  let avg := averageAmount g
  if avg < 0 then true
  else if avg = 0 then false
  else decide (amountVariance g < (q * avg) ^ 2)

def sortDatesAsc (g : List Tx) : List Int :=
  List.insertionSort (fun a b : Int => a ≤ b) (g.map (·.date))

/-- Consecutive date gaps in days (`ms / 86 400 000`). -/
def intervalsOf : List Int → List ℚ
  | a :: b :: rest => ((b - a : Int) : ℚ) / 86400000 :: intervalsOf (b :: rest)
  | _ => []

def intervals (g : List Tx) : List ℚ := intervalsOf (sortDatesAsc g)

def avgInterval (g : List Tx) : ℚ := (intervals g).sum / (intervals g).length

def intervalVariance (g : List Tx) : ℚ :=
  ((intervals g).map (fun x => (x - avgInterval g) ^ 2)).sum / (intervals g).length

/-- `sqrt(intervalVariance) < c` for the positive bounds used (3 and 5). -/
def intervalStdDevLt (g : List Tx) (c : ℚ) : Bool :=
  decide (intervalVariance g < c ^ 2)

/-- Frequency from the mean interval. -/
def classifyFrequency (avg : ℚ) : Frequency :=
  if 28 ≤ avg ∧ avg ≤ 32 then .monthly
  else if 13 ≤ avg ∧ avg ≤ 15 then .biweekly
  else if 6 ≤ avg ∧ avg ≤ 8 then .weekly
  else if 4/5 ≤ avg ∧ avg ≤ 6/5 then .daily
  else .unknown

/-- `analyzeRecurringPattern` (callers guarantee a nonempty group). -/
def analyzeRecurringPattern (g : List Tx) : RecurringPattern :=
  let first := g.headI
  let avgAmt := averageAmount g
  let freq := classifyFrequency (avgInterval g)
  let conf : Confidence :=
    if decide (3 ≤ g.length) && amountCoeffLt g (1/10) && intervalStdDevLt g 3 &&
        decide (freq ≠ .unknown) then .high
    else if decide (2 ≤ g.length) && amountCoeffLt g (1/5) && intervalStdDevLt g 5 &&
        decide (freq ≠ .unknown) then .medium
    else .low
  { description := first.description,
    normalizedDescription := normalizeDescription first.description,
    amount := avgAmt, category := first.category, source := first.source,
    averageAmount := avgAmt, frequency := freq, confidence := conf }

/-- `calculateNextExpectedDate`: most recent date plus one step of the
frequency; `setDate(+k)` is exactly `+k` days in the DST-free model, and
`setMonth(+1)` is `addMonthJS`. -/
def calculateNextExpectedDate (g : List Tx) (f : Frequency) : Option Int :=
  match g with
  | [] => none
  | _ :: _ =>
    let sorted := List.insertionSort (fun a b : Int => b ≤ a) (g.map (·.date))
    let lastDate := sorted.headI
    match f with
    | .daily => some (lastDate + 1 * msPerDay)
    | .weekly => some (lastDate + 7 * msPerDay)
    | .biweekly => some (lastDate + 14 * msPerDay)
    | .monthly => some (addMonthJS lastDate)
    | .unknown => none

def confidenceRank : Confidence → ℕ
  | .high => 3
  | .medium => 2
  | .low => 1

/-- `detectRecurringTransactions` on the fetched window: group, keep
groups of two or more whose pattern is not LOW, sort by confidence
descending (stable, as the JS comparator sort). -/
def detectRecurringTransactions (txs : List Tx) : List RecurringTransaction :=
  let recs := (groupKeys txs).filterMap (fun k =>
    let g := groupFor txs k
    if 2 ≤ g.length then
      let p := analyzeRecurringPattern g
      if p.confidence ≠ .low then
        some { pattern := p,
               occurrences := List.insertionSort (fun a b : Tx => a.date ≤ b.date) g,
               nextExpectedDate := calculateNextExpectedDate g p.frequency,
               totalOccurrences := g.length }
      else none
    else none)
  List.insertionSort
    (fun a b => confidenceRank b.pattern.confidence ≤ confidenceRank a.pattern.confidence) recs

/-! ### Summary insights (`summaryService.ts`)

`SummaryType` is the wrapper's input record; `byCategory` models the JS
object as a key-unique association list in insertion order.  `toFixedQ`
renders a rational with fixed decimals (rounding to nearest, which is
what `toFixed` does on the values at hand); no claim depends on the
rendered digits. -/

structure SummaryTx where
  amount : ℚ
  category : String
deriving DecidableEq, Repr, Inhabited

structure SummaryType where
  total : ℚ
  byCategory : List (String × ℚ)
  topTransactions : List SummaryTx
deriving DecidableEq, Repr

def toFixedQ (q : ℚ) (n : ℕ) : String :=
  let r : Int := (q * 10 ^ n + 1/2).floor
  if n = 0 then toString r
  else
    let p : Int := 10 ^ n
    toString (r.fdiv p) ++ "." ++ (toString (p + r.emod p)).drop 1

/-- `Object.entries(byCategory)` sorted by amount descending (stable). -/
def sortedCategories (s : SummaryType) : List (String × ℚ) :=
  List.insertionSort (fun a b : String × ℚ => b.2 ≤ a.2) s.byCategory

/-- `generateInsightsWithRules`: the four rule insights in order, emitted
only when applicable, capped at 4. -/
def generateInsightsWithRules (s : SummaryType) : List String :=
  let i1 : List String :=
    if 0 < s.total then
      match sortedCategories s with
      | [] => []
      | (cat, amt) :: _ =>
        let pctStr := toFixedQ (amt / s.total * 100) 1
        if 1/2 < amt / s.total then
          ["Your highest spending category is " ++ cat ++ " at " ++ pctStr ++ "% of total."]
        else
          ["Your highest spending category is " ++ cat ++ " (" ++ pctStr ++ "% of total)."]
    else []
  let i2 : List String :=
    if 20000 < s.total then
      ["Your total spend is quite high this week at ₹" ++ toFixedQ s.total 2 ++
        ", consider reducing discretionary expenses."]
    else if 0 < s.total then
      ["Your total spending this week is ₹" ++ toFixedQ s.total 2 ++ "."]
    else []
  let i3 : List String :=
    match s.topTransactions with
    | [] => []
    | t :: _ =>
      ["Your biggest transaction was ₹" ++ toFixedQ t.amount 2 ++ " in " ++ t.category ++ "."]
  let i4 : List String :=
    if 5 ≤ s.byCategory.length then
      ["You spent across " ++ toString s.byCategory.length ++ " different categories this week."]
    else []
  (i1 ++ i2 ++ i3 ++ i4).take 4

/-- `generateInsights`: the insights agent's response when it is a
nonempty array containing at least one nonempty string (truncated to 4);
the rule-based fallback on a thrown error or any invalid shape (`none`
models a response without a valid nonempty `insights` array). -/
def generateInsights (oracle : Except Unit (Option (List String))) (s : SummaryType) :
    List String :=
  match oracle with
  | .error _ => generateInsightsWithRules s
  | .ok none => generateInsightsWithRules s
  | .ok (some l) =>
    if l.isEmpty then generateInsightsWithRules s
    else
      let valid := l.filter (fun i => 0 < (trimChars i.toList).length)
      if valid.isEmpty then generateInsightsWithRules s else valid.take 4

/-- Oracle outcomes the categorization service treats as failures: a
thrown error (unconfigured or network), or a response without a
nonempty-after-trim category string. -/
def oracleFailed (o : Except Unit AdkResult) : Bool :=
  match o with
  | .error _ => true
  | .ok r =>
    match adkCategory r with
    | none => true
    | some c => decide ((trimChars c.toList).length = 0)

/-! ### General lemmas -/

lemma ne_empty_of_length_pos {m : String} (h : 0 < m.length) : m ≠ "" := by
  intro he
  rw [he] at h
  exact absurd h (by decide)

/-! ### Claim theorems

Batteries seals the rational arithmetic operations; they are unsealed
here so that concrete evaluations go through `decide`/`rfl`. -/

section ClaimTheorems

unseal Rat.add Rat.mul Rat.inv Rat.sub

lemma orElse_cases {α : Type} {a : Option α} {f : Unit → Option α} {b : α}
    (h : a.orElse f = some b) : a = some b ∨ (a = none ∧ f () = some b) := by
  cases a with
  | none => simp [Option.orElse] at h; exact Or.inr ⟨rfl, h⟩
  | some x => simp [Option.orElse] at h; exact Or.inl (by rw [h])

/-- `tryAmtPat` only succeeds with a positive value: the source keeps a
parsed amount only under the `amount > 0` guard. -/
lemma tryAmtPat_pos {m : Option (List Char)} {a : ℚ} (h : tryAmtPat m = some a) : 0 < a := by
  cases m with
  | none => simp [tryAmtPat] at h
  | some cap =>
    unfold tryAmtPat at h
    simp only [] at h
    cases hp : parseFloatQ (cap.filter fun c => c ≠ ',') with
    | none => rw [hp] at h; simp at h
    | some v =>
      rw [hp] at h
      simp only [] at h
      by_cases hv : 0 < v
      · rw [if_pos hv] at h
        exact (Option.some_inj.mp h) ▸ hv
      · rw [if_neg hv] at h
        simp at h

/-- `extractAmount` only returns positive values. -/
lemma extractAmount_pos {s : String} {a : ℚ} (h : extractAmount s = some a) : 0 < a := by
  unfold extractAmount at h
  rcases orElse_cases h with h1 | ⟨-, h2⟩
  · exact tryAmtPat_pos h1
  · rcases orElse_cases h2 with h3 | ⟨-, h4⟩
    · exact tryAmtPat_pos h3
    · exact tryAmtPat_pos h4

/-- Claim C1 (amended): for every SMS that the transactional-message
filter accepts — which, beyond containing a currency-amount token and a
transaction keyword, also requires the absence of strong OTP indicators,
of weak non-transaction keywords without `debited`/`credited`, and of an
OTP-code pattern with OTP vocabulary — and whose amount extraction
succeeds, the parser returns a non-null result whose amount is the
extracted value, which is strictly positive. -/
theorem c1_accepted_sms_parses (s : String) (sender : Option String) (now : Int) (a : ℚ)
    (hfilter : isTransactionSMS s = true) (hamt : extractAmount s = some a) :
    ∃ p, parseSMSTransaction s sender now = some p ∧ p.amount = a ∧ 0 < a := by
  have hp : parseSMSTransaction s sender now =
      some { rawText := s, amount := a, merchant := extractMerchant s,
             date := extractDate s now, type := determineTransactionDirection s,
             channel := detectTransactionType s, bank := detectBank s sender } := by
    unfold parseSMSTransaction
    rw [hamt, if_pos hfilter]
  exact ⟨_, hp, rfl, extractAmount_pos hamt⟩

/-- Witness for C1 at a concrete accepted SMS. -/
theorem c1_witness :
    ∃ p, parseSMSTransaction "INR 1,250 spent on your card at BIGBAZAAR on 03/04/2025"
        none 0 = some p ∧ p.amount = 1250 ∧ (0 : ℚ) < 1250 :=
  c1_accepted_sms_parses _ none 0 1250 (by decide) (by decide)

/-- Counterexample to C1 as stated: this SMS contains a currency-amount
pattern and the transaction keyword `debited`, and contains no weak
non-transaction keyword at all (so the claim's weak-keyword proviso holds
vacuously), yet the parser returns null, because `do not share` is a
strong OTP indicator and those rejections are not excluded by the claim. -/
theorem c1_counterexample :
    (firstSome amountTokenAt (toLowerStr "Rs.500 debited from A/c. Do not share this message.")).isSome = true ∧
    containsSub (toLowerStr "Rs.500 debited from A/c. Do not share this message.") "debited".toList = true ∧
    nonTransactionKeywords.all (fun k =>
      !containsSub (toLowerStr "Rs.500 debited from A/c. Do not share this message.") k.toList ||
      containsSub (toLowerStr "Rs.500 debited from A/c. Do not share this message.") "debited".toList ||
      containsSub (toLowerStr "Rs.500 debited from A/c. Do not share this message.") "credited".toList) = true ∧
    parseSMSTransaction "Rs.500 debited from A/c. Do not share this message." none 0 = none := by
  decide

/-- Claim C7: on the UPI debit sample SMS, the parser returns a result
with amount 500, channel UPI, direction DEBIT, merchant containing
SWIGGY, and date December 2, 2024 (`mkDateMs 2024 11 2` is midnight of
Dec 2, 2024, the JS month index 11 being December and the 2-digit year
mapped to 2000 + 24).  The processing-time argument is irrelevant because
the date pattern matches. -/
theorem c7_swiggy_sample :
    (parseSMSTransaction
        "Rs.500.00 debited from A/c XX1234 for UPI/123456789012/SWIGGY on 02-Dec-24"
        none 0).map
      (fun p => (p.amount, p.channel, p.type,
        containsSub p.merchant.toList "SWIGGY".toList, p.date)) =
    some (500, Channel.upi, Direction.debit, true, mkDateMs 2024 11 2) := by
  decide

/-- Claim C6: any SMS containing a strong one-time-password indicator is
rejected by the filter, so the parser returns null regardless of the rest
of the content. -/
theorem c6_strong_otp_rejects (s : String) (sender : Option String) (now : Int)
    (h : strongOtpIndicators.any (fun i => containsSub (toLowerStr s) i.toList) = true) :
    parseSMSTransaction s sender now = none := by
  have hf : isTransactionSMS s = false := by
    unfold isTransactionSMS
    simp only [h, if_true]
  unfold parseSMSTransaction
  simp [hf]

/-- Witness for C6 at a concrete OTP message that also carries an amount
and a transaction keyword. -/
theorem c6_witness :
    parseSMSTransaction
      "Rs.500 paid. Your one-time password is ready, do not share it." none 0 = none :=
  c6_strong_otp_rejects _ none 0 (by decide)

/-- Claim C10: the rule-based categorizer only ever produces one of the
seven labels Cash, Bills, Food, Transport, Rent, Shopping, Other — in
particular never Entertainment, Healthcare or Groceries — and its result
is a non-empty string. -/
theorem c10_rule_based_label_set (d : String) :
    ruleBasedCategorize d ∈ ["Cash", "Bills", "Food", "Transport", "Rent", "Shopping", "Other"] ∧
    ruleBasedCategorize d ∉ ["Entertainment", "Healthcare", "Groceries"] ∧
    ruleBasedCategorize d ≠ "" := by
  unfold ruleBasedCategorize
  simp only []
  split_ifs <;> exact ⟨by decide, by decide, by decide⟩

/-- Claim C8: whenever the oracle call fails — thrown error, or a
response with no valid category, or a category that is empty after
trimming — `categorizeTransaction` returns exactly the rule-based result;
with the oracle unavailable the two sample descriptions map to Rent and
Cash. -/
theorem c8_categorize_fallback :
    (∀ (o : Except Unit AdkResult) (d : String), oracleFailed o = true →
        categorizeTransaction o d = ruleBasedCategorize d) ∧
    categorizeTransaction (.error ()) "Rent payment to landlord" = "Rent" ∧
    categorizeTransaction (.error ()) "withdrawn at XYZ ATM" = "Cash" := by
  refine ⟨?_, by decide, by decide⟩
  intro o d h
  cases o with
  | error e => rfl
  | ok r =>
    simp only [categorizeTransaction, oracleFailed] at h ⊢
    cases hc : adkCategory r with
    | none => rfl
    | some c =>
      rw [hc] at h
      replace h : trimChars c.data = [] := by simpa using h
      simp [h]

/-- Witness for C8's universally quantified part at a concrete failing
oracle and description. -/
theorem c8_witness :
    categorizeTransaction (.error ()) "Uber to airport" = "Transport" :=
  (c8_categorize_fallback.1 (.error ()) "Uber to airport" (by decide)).trans (by decide)

lemma append_left_ne_empty {a : String} (b : String) (ha : a ≠ "") : a ++ b ≠ "" := by
  intro h
  apply ha
  have hd := congrArg String.data h
  rw [String.data_append] at hd
  rcases List.append_eq_nil.mp hd with ⟨h1, -⟩
  cases a
  simp_all

/-- Claim C9 (amended): on the rule-based fallback path (taken whenever
the oracle throws), `generateInsights` returns at most 4 insights, every
returned insight is a non-empty string, and when the summary has a
positive total and a non-empty category map at least 2 insights are
returned.  A summary of an empty transaction set (total 0, no categories,
no transactions) yields an empty list, not 2–5 strings. -/
theorem c9_insights_bounds :
    (∀ s : SummaryType, generateInsights (.error ()) s = generateInsightsWithRules s) ∧
    (∀ s : SummaryType, (generateInsightsWithRules s).length ≤ 4) ∧
    (∀ s : SummaryType, ∀ m ∈ generateInsightsWithRules s, m ≠ "") ∧
    (∀ s : SummaryType, 0 < s.total → s.byCategory ≠ [] →
        2 ≤ (generateInsightsWithRules s).length) := by
  refine ⟨fun s => rfl, ?_, ?_, ?_⟩
  · intro s
    unfold generateInsightsWithRules
    simp only [List.length_take]
    omega
  · intro s m hm
    unfold generateInsightsWithRules at hm
    simp only [] at hm
    have hm' := List.mem_of_mem_take hm
    rcases List.mem_append.mp hm' with h123 | h4
    · rcases List.mem_append.mp h123 with h12 | h3
      · rcases List.mem_append.mp h12 with h1 | h2
        · split at h1
          · split at h1
            · exact absurd h1 (by simp)
            · split at h1 <;>
                · rw [List.mem_singleton] at h1
                  subst h1
                  repeat' apply append_left_ne_empty
                  decide
          · exact absurd h1 (by simp)
        · split at h2
          · rw [List.mem_singleton] at h2
            subst h2
            repeat' apply append_left_ne_empty
            decide
          · split at h2
            · rw [List.mem_singleton] at h2
              subst h2
              repeat' apply append_left_ne_empty
              decide
            · exact absurd h2 (by simp)
      · split at h3
        · exact absurd h3 (by simp)
        · rw [List.mem_singleton] at h3
          subst h3
          repeat' apply append_left_ne_empty
          decide
    · split at h4
      · rw [List.mem_singleton] at h4
        subst h4
        repeat' apply append_left_ne_empty
        decide
      · exact absurd h4 (by simp)
  · intro s ht hbc
    have hsc : sortedCategories s ≠ [] := by
      intro hnil
      apply hbc
      have hlen := List.length_insertionSort
        (fun a b : String × ℚ => b.2 ≤ a.2) s.byCategory
      rw [show List.insertionSort (fun a b : String × ℚ => b.2 ≤ a.2) s.byCategory
          = sortedCategories s from rfl, hnil] at hlen
      exact List.length_eq_zero.mp hlen.symm
    unfold generateInsightsWithRules
    cases hsc' : sortedCategories s with
    | nil => exact absurd hsc' hsc
    | cons p rest =>
      obtain ⟨cat, amt⟩ := p
      simp only [List.length_take, List.length_append]
      split_ifs with h1 h2 h3 h4 h5 h6 <;>
        first
          | (exact absurd ht (by assumption))
          | (simp only [List.length_singleton, List.length_nil]; omega)

/-- Witness for C9's hypothesis-bearing parts at a concrete summary. -/
theorem c9_witness :
    2 ≤ (generateInsightsWithRules
        { total := 350, byCategory := [("Food", 300), ("Transport", 50)],
          topTransactions := [{ amount := 200, category := "Food" }] }).length :=
  c9_insights_bounds.2.2.2 _ (by decide) (by decide)

/-- Counterexample to C9 as stated: with the oracle unavailable, the
summary of an empty transaction set yields an empty insight list, not an
ordered list of 2 to 5 strings. -/
theorem c9_counterexample :
    generateInsights (.error ()) { total := 0, byCategory := [], topTransactions := [] } = [] ∧
    ¬ 2 ≤ (generateInsights (.error ())
        { total := 0, byCategory := [], topTransactions := [] }).length := by
  exact ⟨by decide, by decide⟩

lemma isEmpty_false_of_ne {α : Type} {l : List α} (h : l ≠ []) : l.isEmpty = false := by
  cases l with
  | nil => exact absurd rfl h
  | cons a t => rfl

/-- Claim C3 (amended): a HIGH-confidence duplicate verdict is guaranteed
when, among the query's candidate set — the ten most recent history
transactions with the same source and amount within 1%, dated in the
24-hour window ending at (not centred on) the candidate — some transaction
has the identical normalized description within one hour; the query window
excludes history entries dated after the candidate, so "within 1 hour"
must be read as at-or-before.  And any single matching history entry 20
hours before the candidate yields a confidence of at most MEDIUM. -/
theorem c3_duplicate_confidence :
    (∀ (cand : CreateTxInput) (history : List Tx) (tx : Tx),
        tx ∈ dupQuery cand history 24 →
        normalizeDescription tx.description = normalizeDescription cand.description →
        |((cand.date - tx.date : Int) : ℚ)| / 3600000 ≤ 1 →
        (checkForDuplicate cand history 24).confidence = .high ∧
          (checkForDuplicate cand history 24).isDuplicate = true) ∧
    (∀ (cand : CreateTxInput) (tx : Tx),
        tx.source = cand.source → tx.amount = cand.amount →
        cand.date - tx.date = 20 * msPerHour →
        (checkForDuplicate cand [tx] 24).confidence ≠ .high) := by
  constructor
  · intro cand history tx hq hdesc htime
    have hnil : dupQuery cand history 24 ≠ [] := List.ne_nil_of_mem hq
    have hsim : areDescriptionsSimilar (normalizeDescription cand.description)
        (normalizeDescription tx.description) = true := by
      rw [hdesc]
      simp [areDescriptionsSimilar]
    have hvsim : areDescriptionsVerySimilar (normalizeDescription cand.description)
        (normalizeDescription tx.description) = true := by
      rw [hdesc]
      simp [areDescriptionsVerySimilar]
    have htx_sims : tx ∈ (dupQuery cand history 24).filter
        (fun t => areDescriptionsSimilar (normalizeDescription cand.description)
          (normalizeDescription t.description)) :=
      List.mem_filter.mpr ⟨hq, hsim⟩
    have htx_exact : tx ∈ ((dupQuery cand history 24).filter
        (fun t => areDescriptionsSimilar (normalizeDescription cand.description)
          (normalizeDescription t.description))).filter
        (fun t => decide (|((cand.date - t.date : Int) : ℚ)| / 3600000 ≤ 1) &&
          areDescriptionsVerySimilar (normalizeDescription cand.description)
            (normalizeDescription t.description)) := by
      refine List.mem_filter.mpr ⟨htx_sims, ?_⟩
      rw [hvsim, decide_eq_true htime]
      rfl
    unfold checkForDuplicate
    simp only [isEmpty_false_of_ne hnil,
      isEmpty_false_of_ne (List.ne_nil_of_mem htx_sims),
      isEmpty_false_of_ne (List.ne_nil_of_mem htx_exact),
      Bool.false_eq_true, if_false]
    constructor <;> trivial
  · intro cand tx hsrc hamt hdate
    by_cases hc0 : cand.amount = 0
    · have hq : dupQuery cand [tx] 24 = [] := by
        unfold dupQuery
        simp [amountWithinTol, hc0]
      unfold checkForDuplicate
      simp [hq]
    · have h1 : (tx.source == cand.source) = true := by
        rw [hsrc]; exact beq_self_eq_true _
      have h2 : cand.date - 24 * msPerHour ≤ tx.date := by
        simp only [msPerHour] at hdate ⊢
        omega
      have h3 : tx.date ≤ cand.date := by
        simp only [msPerHour] at hdate
        omega
      have h4 : amountWithinTol tx.amount cand.amount = true := by
        unfold amountWithinTol
        rw [hamt]
        simp [hc0]
      have hpred : (tx.source == cand.source &&
          decide (cand.date - 24 * msPerHour ≤ tx.date) &&
          decide (tx.date ≤ cand.date) &&
          amountWithinTol tx.amount cand.amount) = true := by
        rw [h1, h4, decide_eq_true h2, decide_eq_true h3]
        rfl
      have hq : dupQuery cand [tx] 24 = [tx] := by
        unfold dupQuery
        simp only [List.filter_cons, List.filter_nil, hpred, if_true,
          List.insertionSort, List.orderedInsert]
        rfl
      have hexfalse : (decide (|((cand.date - tx.date : Int) : ℚ)| / 3600000 ≤ 1) &&
          areDescriptionsVerySimilar (normalizeDescription cand.description)
            (normalizeDescription tx.description)) = false := by
        have hfar : ¬ (|((cand.date - tx.date : Int) : ℚ)| / 3600000 ≤ 1) := by
          rw [hdate]
          norm_num [msPerHour]
        rw [decide_eq_false hfar]
        rfl
      cases hsim : areDescriptionsSimilar (normalizeDescription cand.description)
          (normalizeDescription tx.description) with
      | false =>
        unfold checkForDuplicate
        simp only [hq, List.isEmpty_cons, Bool.false_eq_true, if_false,
          List.filter_cons, List.filter_nil, hsim]
        simp
      | true =>
        unfold checkForDuplicate
        simp only [hq, List.isEmpty_cons, Bool.false_eq_true, if_false,
          List.filter_cons, List.filter_nil, hsim, if_true, hexfalse]
        simp

/-- The candidate and history used by the C3 witness and counterexample
(the counterexample history entry is dated 30 minutes after the
candidate, the witness entry 30 minutes before). -/
def c3Cand : CreateTxInput :=
  { amount := 100, description := "coffee shop", source := "UPI", date := 1733097600000 }

def c3Before : Tx :=
  { amount := 100, description := "coffee shop", category := "Food", source := "UPI",
    date := 1733097600000 - 1800000 }

def c3After : Tx :=
  { amount := 100, description := "coffee shop", category := "Food", source := "UPI",
    date := 1733097600000 + 1800000 }

/-- Witness for C3's first part at a concrete candidate and history. -/
theorem c3_witness :
    (checkForDuplicate c3Cand [c3Before] 24).confidence = .high ∧
    (checkForDuplicate c3Cand [c3Before] 24).isDuplicate = true :=
  c3_duplicate_confidence.1 c3Cand [c3Before] c3Before (by decide) (by decide) (by decide)

/-- Counterexample to C3 as stated: a history transaction with identical
amount, source and description dated 30 minutes from the candidate — but
after it — is excluded by the query window, so the result is LOW, not
HIGH. -/
theorem c3_counterexample :
    (checkForDuplicate c3Cand [c3After] 24).confidence = .low ∧
    (checkForDuplicate c3Cand [c3After] 24).isDuplicate = false ∧
    c3After.amount = c3Cand.amount ∧ c3After.source = c3Cand.source ∧
    c3After.description = c3Cand.description ∧
    |((c3Cand.date - c3After.date : Int) : ℚ)| / 3600000 ≤ 1 := by
  refine ⟨by decide, by decide, by decide, by decide, by decide, by norm_num [c3Cand, c3After]⟩

/-- Claim C5: `detectRecurringTransactions` never returns a
LOW-confidence pattern (LOW groups are excluded entirely), and a group of
exactly 2 transactions failing the 0.2 coefficient-of-variation bound is
classified LOW. -/
theorem c5_low_groups_excluded :
    (∀ (txs : List Tx) (r : RecurringTransaction), r ∈ detectRecurringTransactions txs →
        r.pattern.confidence ≠ .low) ∧
    (∀ (g : List Tx), g.length = 2 → amountCoeffLt g (1/5) = false →
        (analyzeRecurringPattern g).confidence = .low) := by
  constructor
  · intro txs r hr
    unfold detectRecurringTransactions at hr
    rw [List.mem_insertionSort] at hr
    obtain ⟨k, hk, hfk⟩ := List.mem_filterMap.mp hr
    simp only [] at hfk
    by_cases h2 : 2 ≤ (groupFor txs k).length
    · rw [if_pos h2] at hfk
      by_cases hc : (analyzeRecurringPattern (groupFor txs k)).confidence ≠ .low
      · rw [if_pos hc] at hfk
        obtain rfl := Option.some_inj.mp hfk
        exact hc
      · rw [if_neg hc] at hfk
        exact absurd hfk (by simp)
    · rw [if_neg h2] at hfk
      exact absurd hfk (by simp)
  · intro g hlen hcoeff
    have hhigh : decide (3 ≤ g.length) = false := by rw [hlen]; rfl
    unfold analyzeRecurringPattern
    simp only []
    rw [hhigh, hcoeff]
    simp only [Bool.false_and, Bool.and_false, Bool.false_eq_true, if_false]

def c5LowGroup : List Tx :=
  [{ amount := 100, description := "gym", category := "Other", source := "UPI", date := 0 },
   { amount := 150, description := "gym", category := "Other", source := "UPI",
     date := 30 * msPerDay }]

def c5MonthlyGroup : List Tx :=
  [{ amount := 499, description := "gym", category := "Other", source := "UPI", date := 0 },
   { amount := 499, description := "gym", category := "Other", source := "UPI",
     date := 30 * msPerDay },
   { amount := 499, description := "gym", category := "Other", source := "UPI",
     date := 61 * msPerDay },
   { amount := 499, description := "gym", category := "Other", source := "UPI",
     date := 90 * msPerDay }]

/-- Witness for C5 at concrete groups: a 2-transaction group with amount
coefficient of variation exactly 0.2 (not below) is LOW, and the pattern
actually returned for a clean monthly group is not LOW. -/
theorem c5_witness :
    (analyzeRecurringPattern c5LowGroup).confidence = .low ∧
    (detectRecurringTransactions c5MonthlyGroup).headI.pattern.confidence ≠ .low :=
  ⟨c5_low_groups_excluded.2 c5LowGroup (by decide) (by decide),
   c5_low_groups_excluded.1 c5MonthlyGroup _ (by decide)⟩

/-- The head of the descending insertion sort of a nonempty integer list
is a maximum of the list. -/
lemma headI_sortDesc (l : List Int) (h : l ≠ []) :
    (List.insertionSort (fun a b : Int => b ≤ a) l).headI ∈ l ∧
    ∀ x ∈ l, x ≤ (List.insertionSort (fun a b : Int => b ≤ a) l).headI := by
  have hperm := List.perm_insertionSort (fun a b : Int => b ≤ a) l
  have hsorted := List.sorted_insertionSort (fun a b : Int => b ≤ a) l
  cases hs : List.insertionSort (fun a b : Int => b ≤ a) l with
  | nil =>
    rw [hs] at hperm
    exact absurd hperm.symm.eq_nil h
  | cons a t =>
    rw [hs] at hperm hsorted
    simp only [List.headI]
    constructor
    · exact hperm.mem_iff.mp (List.mem_cons_self a t)
    · intro x hx
      have hx' : x ∈ a :: t := hperm.mem_iff.mpr hx
      rcases List.mem_cons.mp hx' with rfl | hxt
      · exact le_refl x
      · exact List.rel_of_sorted_cons hsorted x hxt

/-- Claim C2 (amended): for every nonempty group, the next expected date
is omitted exactly when the frequency is UNKNOWN; for DAILY, WEEKLY and
BIWEEKLY it is the most recent occurrence date plus exactly 1, 7 and 14
days; for MONTHLY it is the most recent occurrence date advanced by one
calendar month (`setMonth(getMonth() + 1)`), which is 28 to 31 days — not
always 30. -/
theorem c2_next_expected (g : List Tx) (f : Frequency) (hg : g ≠ []) :
    (f = .unknown → calculateNextExpectedDate g f = none) ∧
    (f = .daily → ∃ m, m ∈ g.map (·.date) ∧ (∀ x ∈ g.map (·.date), x ≤ m) ∧
        calculateNextExpectedDate g f = some (m + 1 * msPerDay)) ∧
    (f = .weekly → ∃ m, m ∈ g.map (·.date) ∧ (∀ x ∈ g.map (·.date), x ≤ m) ∧
        calculateNextExpectedDate g f = some (m + 7 * msPerDay)) ∧
    (f = .biweekly → ∃ m, m ∈ g.map (·.date) ∧ (∀ x ∈ g.map (·.date), x ≤ m) ∧
        calculateNextExpectedDate g f = some (m + 14 * msPerDay)) ∧
    (f = .monthly → ∃ m, m ∈ g.map (·.date) ∧ (∀ x ∈ g.map (·.date), x ≤ m) ∧
        calculateNextExpectedDate g f = some (addMonthJS m)) := by
  have hmap : g.map (·.date) ≠ [] := by
    cases g with
    | nil => exact absurd rfl hg
    | cons t ts => simp
  obtain ⟨hmem, hmax⟩ := headI_sortDesc (g.map (·.date)) hmap
  cases g with
  | nil => exact absurd rfl hg
  | cons t ts =>
    refine ⟨?_, ?_, ?_, ?_, ?_⟩ <;> intro hf <;> subst hf
    · rfl
    · exact ⟨_, hmem, hmax, rfl⟩
    · exact ⟨_, hmem, hmax, rfl⟩
    · exact ⟨_, hmem, hmax, rfl⟩
    · exact ⟨_, hmem, hmax, rfl⟩

def c2Group : List Tx :=
  [{ amount := 499, description := "netflix", category := "Other", source := "UPI",
     date := mkDateMs 2024 0 15 },
   { amount := 499, description := "netflix", category := "Other", source := "UPI",
     date := mkDateMs 2024 1 15 }]

/-- Witness for C2's monthly case at a concrete group. -/
theorem c2_witness :
    ∃ m, m ∈ c2Group.map (·.date) ∧ (∀ x ∈ c2Group.map (·.date), x ≤ m) ∧
      calculateNextExpectedDate c2Group .monthly = some (addMonthJS m) :=
  (c2_next_expected c2Group .monthly (by decide)).2.2.2.2 rfl

/-- A recurring monthly group whose most recent occurrence falls on
March 4, 2024: four equal transactions spaced 30, 31 and 29 days apart
(Dec 5 2023, Jan 4, Feb 4, Mar 4 2024). -/
def c2Txs : List Tx :=
  [{ amount := 499, description := "gym membership", category := "Other", source := "UPI",
     date := mkDateMs 2023 11 5 },
   { amount := 499, description := "gym membership", category := "Other", source := "UPI",
     date := mkDateMs 2024 0 4 },
   { amount := 499, description := "gym membership", category := "Other", source := "UPI",
     date := mkDateMs 2024 1 4 },
   { amount := 499, description := "gym membership", category := "Other", source := "UPI",
     date := mkDateMs 2024 2 4 }]

/-- Counterexample to C2 as stated: for this MONTHLY pattern the reported
`nextExpectedDate` is April 4, 2024 — one calendar month after the most
recent occurrence March 4, 2024 — which is 31 days later, not the
claimed most-recent-date + 30 days (April 3). -/
theorem c2_counterexample :
    (detectRecurringTransactions c2Txs).length = 1 ∧
    (detectRecurringTransactions c2Txs).headI.pattern.frequency = .monthly ∧
    (detectRecurringTransactions c2Txs).headI.nextExpectedDate = some (mkDateMs 2024 3 4) ∧
    mkDateMs 2024 2 4 ∈ c2Txs.map (·.date) ∧
    (∀ x ∈ c2Txs.map (·.date), x ≤ mkDateMs 2024 2 4) ∧
    mkDateMs 2024 3 4 ≠ mkDateMs 2024 2 4 + 30 * msPerDay := by
  refine ⟨by decide, by decide, by decide, by decide, by decide, by decide⟩

/-- The C4 history: four transactions with equal amount `a` and identical
description, category and source, with consecutive dates 30, 31 and 29
days apart. -/
def c4group (a : ℚ) (s c src : String) (d : Int) : List Tx :=
  [{ amount := a, description := s, category := c, source := src, date := d },
   { amount := a, description := s, category := c, source := src, date := d + 30 * msPerDay },
   { amount := a, description := s, category := c, source := src, date := d + 61 * msPerDay },
   { amount := a, description := s, category := c, source := src, date := d + 90 * msPerDay }]

lemma groupKeys_foldl_const (t : Tx) :
    ∀ l : List Tx, (∀ u ∈ l, txKey u = txKey t) →
      List.foldl (fun ks u => if ks.contains (txKey u) then ks else ks ++ [txKey u])
        [txKey t] l = [txKey t] := by
  intro l
  induction l with
  | nil => intro _; rfl
  | cons u l ih =>
    intro h
    have hu : txKey u = txKey t := h u (List.mem_cons_self u l)
    have hstep : (if List.contains [txKey t] (txKey u) then [txKey t]
        else [txKey t] ++ [txKey u]) = [txKey t] := by
      rw [hu]
      simp [List.contains_cons]
    simp only [List.foldl_cons, hstep]
    exact ih (fun v hv => h v (List.mem_cons_of_mem u hv))

/-- A nonempty history in which every transaction has the same grouping
key produces exactly that one key. -/
lemma groupKeys_const (t : Tx) (txs : List Tx) (h : ∀ u ∈ txs, txKey u = txKey t)
    (hne : txs ≠ []) : groupKeys txs = [txKey t] := by
  cases txs with
  | nil => exact absurd rfl hne
  | cons u l =>
    have hu : txKey u = txKey t := h u (List.mem_cons_self u l)
    unfold groupKeys
    have hfirst : (if List.contains ([] : List String) (txKey u) then ([] : List String)
        else [] ++ [txKey u]) = [txKey t] := by
      rw [hu]
      rfl
    simp only [List.foldl_cons, hfirst]
    exact groupKeys_foldl_const t l (fun v hv => h v (List.mem_cons_of_mem u hv))

lemma c4_groupKeys (a : ℚ) (s c src : String) (d : Int) :
    groupKeys (c4group a s c src d) =
      [txKey { amount := a, description := s, category := c, source := src, date := d }] := by
  refine groupKeys_const _ _ ?_ (by simp [c4group])
  intro u hu
  simp only [c4group, List.mem_cons, List.not_mem_nil, or_false] at hu
  rcases hu with rfl | rfl | rfl | rfl <;> rfl

lemma c4_groupFor (a : ℚ) (s c src : String) (d : Int) :
    groupFor (c4group a s c src d)
      (txKey { amount := a, description := s, category := c, source := src, date := d }) =
      c4group a s c src d := by
  simp [groupFor, c4group, txKey]

lemma c4_avgAmount (a : ℚ) (s c src : String) (d : Int) :
    averageAmount (c4group a s c src d) = a := by
  simp [averageAmount, c4group]
  ring

lemma c4_amountVar (a : ℚ) (s c src : String) (d : Int) :
    amountVariance (c4group a s c src d) = 0 := by
  unfold amountVariance
  rw [c4_avgAmount]
  simp [c4group]

lemma c4_coeff (a : ℚ) (s c src : String) (d : Int) (ha : 0 < a) :
    amountCoeffLt (c4group a s c src d) (1/10) = true := by
  unfold amountCoeffLt
  rw [c4_avgAmount, c4_amountVar]
  rw [if_neg (not_lt.mpr ha.le), if_neg ha.ne']
  simp only [decide_eq_true_eq]
  positivity

lemma c4_sortDates (a : ℚ) (s c src : String) (d : Int) :
    sortDatesAsc (c4group a s c src d) =
      [d, d + 30 * msPerDay, d + 61 * msPerDay, d + 90 * msPerDay] := by
  unfold sortDatesAsc
  have hmap : (c4group a s c src d).map (·.date) =
      [d, d + 30 * msPerDay, d + 61 * msPerDay, d + 90 * msPerDay] := by
    simp [c4group]
  rw [hmap]
  refine List.Sorted.insertionSort_eq ?_
  simp only [List.sorted_cons, List.mem_cons, msPerDay]
  refine ⟨?_, ?_, ?_, ?_⟩ <;> intros <;> simp_all <;> omega

lemma c4_intervals (a : ℚ) (s c src : String) (d : Int) :
    intervals (c4group a s c src d) = [30, 31, 29] := by
  unfold intervals
  rw [c4_sortDates]
  simp only [intervalsOf, msPerDay]
  push_cast
  norm_num

lemma c4_avgInterval (a : ℚ) (s c src : String) (d : Int) :
    avgInterval (c4group a s c src d) = 30 := by
  unfold avgInterval
  rw [c4_intervals]
  norm_num

lemma c4_freq (a : ℚ) (s c src : String) (d : Int) :
    classifyFrequency (avgInterval (c4group a s c src d)) = .monthly := by
  rw [c4_avgInterval]
  rfl

lemma c4_intervalVar (a : ℚ) (s c src : String) (d : Int) :
    intervalVariance (c4group a s c src d) = 2/3 := by
  unfold intervalVariance
  rw [c4_intervals, c4_avgInterval]
  norm_num

lemma c4_stddev (a : ℚ) (s c src : String) (d : Int) :
    intervalStdDevLt (c4group a s c src d) 3 = true := by
  unfold intervalStdDevLt
  rw [c4_intervalVar]
  simp only [decide_eq_true_eq]
  norm_num

lemma c4_analyze (a : ℚ) (s c src : String) (d : Int) (ha : 0 < a) :
    (analyzeRecurringPattern (c4group a s c src d)).frequency = .monthly ∧
    (analyzeRecurringPattern (c4group a s c src d)).confidence = .high := by
  have hcond : (decide (3 ≤ (c4group a s c src d).length) &&
      amountCoeffLt (c4group a s c src d) (1/10) &&
      intervalStdDevLt (c4group a s c src d) 3 &&
      decide (classifyFrequency (avgInterval (c4group a s c src d)) ≠ .unknown)) = true := by
    rw [c4_coeff a s c src d ha, c4_stddev, c4_freq]
    rfl
  unfold analyzeRecurringPattern
  simp only []
  rw [hcond, c4_freq]
  exact ⟨rfl, rfl⟩

/-- Claim C4: every history of exactly 4 transactions of equal positive
amount, identical normalized description, category and source, spaced
exactly 30, 31 and 29 days apart, yields one detected pattern with
frequency MONTHLY and confidence HIGH. -/
theorem c4_monthly_high (a : ℚ) (s c src : String) (d : Int) (ha : 0 < a) :
    ∃ r, detectRecurringTransactions (c4group a s c src d) = [r] ∧
      r.pattern.frequency = .monthly ∧ r.pattern.confidence = .high := by
  have hlen : 2 ≤ (c4group a s c src d).length := by simp [c4group]
  have hne : (analyzeRecurringPattern (c4group a s c src d)).confidence ≠ .low := by
    rw [(c4_analyze a s c src d ha).2]
    decide
  have hdetect : detectRecurringTransactions (c4group a s c src d) =
      [{ pattern := analyzeRecurringPattern (c4group a s c src d),
         occurrences := List.insertionSort (fun x y : Tx => x.date ≤ y.date) (c4group a s c src d),
         nextExpectedDate := calculateNextExpectedDate (c4group a s c src d)
           (analyzeRecurringPattern (c4group a s c src d)).frequency,
         totalOccurrences := (c4group a s c src d).length }] := by
    unfold detectRecurringTransactions
    rw [c4_groupKeys]
    simp only [List.filterMap_cons, List.filterMap_nil, c4_groupFor, if_pos hlen, if_pos hne]
    simp [List.insertionSort, List.orderedInsert]
  exact ⟨_, hdetect, (c4_analyze a s c src d ha).1, (c4_analyze a s c src d ha).2⟩

/-- Witness for C4 at concrete amount, key and start date. -/
theorem c4_witness :
    ∃ r, detectRecurringTransactions (c4group 499 "gym" "Other" "UPI" (mkDateMs 2024 0 1)) = [r] ∧
      r.pattern.frequency = .monthly ∧ r.pattern.confidence = .high :=
  c4_monthly_high 499 "gym" "Other" "UPI" (mkDateMs 2024 0 1) (by decide)

end ClaimTheorems

end Finance
